import Mathlib

/-!
Verification of the `driftctl` core against its specification.

The Python sources under `src/driftctl/` are shallowly embedded:

* `state.py` — the `ProjectState` data model, pydantic-style validation of
  the YAML state document, `load_state` / `save_state` / `add_component`.
* `drift.py` — `detect_drift` and `DriftResult`.
* `guard.py` — `add_rule` / `remove_rule` / `_check_single_rule` /
  `check_rules`.
* `checkpoint.py` — `save_checkpoint` / `rollback_checkpoint`.
* `sync.py` — `generate_claude_md` / `compute_diff`.

The filesystem is embedded as an explicit record (`FS`): the state file
content is the parsed YAML document (the `yaml.dump`/`yaml.safe_load` text
layer, which is library code, is modelled as the identity on documents),
and the checkpoint directory is an association list from checkpoint name
to file content.  Wall-clock time is passed explicitly as the `now`
argument of every operation that stamps a timestamp.  Subprocess execution
and file hashing are oracles passed in as functions.
-/

namespace Driftctl

/-- `ComponentStatus` enum from `state.py`. -/
inductive ComponentStatus where
  | pending
  | in_progress
  | complete
  | blocked
deriving DecidableEq, Repr

/-- String value of a `ComponentStatus`, as in the Python `str`-backed enum. -/
def ComponentStatus.toStr : ComponentStatus → String
  | .pending => "pending"
  | .in_progress => "in_progress"
  | .complete => "complete"
  | .blocked => "blocked"

/-- Parse a `ComponentStatus` from its string value (pydantic enum validation). -/
def ComponentStatus.parse : String → Option ComponentStatus
  | "pending" => some .pending
  | "in_progress" => some .in_progress
  | "complete" => some .complete
  | "blocked" => some .blocked
  | _ => none

/-- `AgentType` enum from `state.py`. -/
inductive AgentType where
  | claude_code
  | cursor
  | copilot
  | other
deriving DecidableEq, Repr

/-- String value of an `AgentType`. -/
def AgentType.toStr : AgentType → String
  | .claude_code => "claude-code"
  | .cursor => "cursor"
  | .copilot => "copilot"
  | .other => "other"

/-- Parse an `AgentType` from its string value. -/
def AgentType.parse : String → Option AgentType
  | "claude-code" => some .claude_code
  | "cursor" => some .cursor
  | "copilot" => some .copilot
  | "other" => some .other
  | _ => none

/-- `Component` model from `state.py`. -/
structure Component where
  status : ComponentStatus := .pending
  output_schema : Option String := none
  contract_hash : Option String := none
  depends_on : Option String := none
deriving DecidableEq, Repr

/-- `Session` model from `state.py`. -/
structure Session where
  date : String
  summary : String
  commits : List String := []
deriving DecidableEq, Repr

/-- `ProjectState` model from `state.py`.  The Python `components` dict is
an insertion-ordered mapping with unique keys; it is embedded as an
association list. -/
structure ProjectState where
  version : String := "0.1.0"
  project : String := ""
  agent : AgentType := .other
  stack : String := ""
  test_command : String := ""
  last_updated : String
  components : List (String × Component) := []
  sessions : List Session := []
  guardrails : List String := []
deriving DecidableEq, Repr

/-- Python truthiness of an `Optional[str]`: `None` and `""` are falsy. -/
def truthy : Option String → Bool
  | none => false
  | some s => s ≠ ""

/-- Python `str.strip()`: remove leading and trailing whitespace.
(Embedded over the character list so that it reduces definitionally.) -/
def pyStrip (s : String) : String :=
  ⟨((s.data.dropWhile Char.isWhitespace).reverse.dropWhile
      Char.isWhitespace).reverse⟩

/-- Python `str.startswith(pre)`. -/
def pyStartsWith (s pre : String) : Bool :=
  s.data.take pre.data.length == pre.data

/-- Python slicing `s[n:]` (by characters). -/
def pyDrop (s : String) (n : Nat) : String :=
  ⟨s.data.drop n⟩

/-- Python `c in s` for a single character `c`. -/
def pyContainsChar (s : String) (c : Char) : Bool :=
  s.data.contains c

/-- Split a character list at newline characters. -/
def splitNl : List Char → List (List Char)
  | [] => [[]]
  | c :: rest =>
      match splitNl rest with
      | [] => [[c]]
      | l :: ls => if c = '\n' then [] :: l :: ls else (c :: l) :: ls

/-- Split a string into its newline-separated lines. -/
def pySplitLines (s : String) : List String :=
  (splitNl s.data).map String.mk

/-- Set `k` to `v` in an association list with Python-dict semantics:
replace in place if the key is present, append otherwise. -/
def setKey (kvs : List (String × α)) (k : String) (v : α) : List (String × α) :=
  match kvs with
  | [] => [(k, v)]
  | (k₀, v₀) :: rest =>
      if k₀ = k then (k, v) :: rest else (k₀, v₀) :: setKey rest k v

/-!
## Drift detection (`drift.py`)

`compute_contract_hash` reads the filesystem; it is embedded as an oracle
`hash : String → Option String` mapping a path to the MD5 digest of the
file's bytes, or `none` when the path is not a regular file (`state.py`,
`compute_contract_hash`).
-/

/-- `DriftResult` dataclass from `drift.py`. -/
structure DriftResult where
  clean : List String := []
  drifted : List String := []
  missing : List String := []
  no_contract : List String := []
deriving DecidableEq, Repr

/-- `DriftResult.ok` property: true when no drift or missing files were
detected (`len(self.drifted) == 0 and len(self.missing) == 0`). -/
def DriftResult.ok (r : DriftResult) : Bool :=
  r.drifted.length == 0 && r.missing.length == 0

/-- The classification loop of `detect_drift` over the components mapping.
Each iteration appends the name to exactly one bucket, in iteration
order. -/
def detectDriftList (hash : String → Option String) :
    List (String × Component) → DriftResult
  | [] => {}
  | (name, comp) :: rest =>
      let r := detectDriftList hash rest
      if ¬ truthy comp.output_schema ∨ ¬ truthy comp.contract_hash then
        { r with no_contract := name :: r.no_contract }
      else
        match hash (comp.output_schema.getD "") with
        | none => { r with missing := name :: r.missing }
        | some h =>
            if some h = comp.contract_hash then
              { r with clean := name :: r.clean }
            else
              { r with drifted := name :: r.drifted }

/-- `detect_drift` from `drift.py`, applied to the loaded state. -/
def detect_drift (hash : String → Option String) (s : ProjectState) : DriftResult :=
  detectDriftList hash s.components

/-- Concatenation of the four buckets of a `DriftResult`. -/
def buckets (r : DriftResult) : List String :=
  r.clean ++ r.drifted ++ r.missing ++ r.no_contract

/-- A concrete sample state: component `a` has no contract, component `b`
has a schema path and a recorded hash. -/
def exState : ProjectState :=
  { last_updated := "t0"
    components :=
      [("a", {}),
       ("b", { output_schema := some "p", contract_hash := some "h1" })] }

/-- A concrete hashing oracle for the sample state. -/
def exHash : String → Option String :=
  fun p => if p = "p" then some "h1" else none

/-!
## State document serialization and validation (`state.py`)

The state file content is embedded as a structured document value `Yaml`
(scalars are strings, as produced by `model_dump(mode="json")` for this
schema; `yaml.dump` / `yaml.safe_load` — library code — are modelled as
the identity on documents).  `dumpState` embeds `model_dump`, and
`validateState` embeds the validation pydantic generates from the model
declarations in `state.py`: string fields accept strings, optional fields
accept null, missing fields take the declared defaults, enum fields accept
exactly the enum values, extra keys are ignored.
-/

/-- YAML document values, as relevant to the state schema. -/
inductive Yaml where
  | str : String → Yaml
  | arr : List Yaml → Yaml
  | obj : List (String × Yaml) → Yaml
  | null : Yaml

/-- JSON-mode dump of an `Optional[str]`. -/
def optStrYaml : Option String → Yaml
  | none => .null
  | some s => .str s

/-- `model_dump(mode="json")` of a `Component`. -/
def dumpComponent (c : Component) : Yaml :=
  .obj [("status", .str c.status.toStr),
        ("output_schema", optStrYaml c.output_schema),
        ("contract_hash", optStrYaml c.contract_hash),
        ("depends_on", optStrYaml c.depends_on)]

/-- `model_dump(mode="json")` of a `Session`. -/
def dumpSession (sn : Session) : Yaml :=
  .obj [("date", .str sn.date),
        ("summary", .str sn.summary),
        ("commits", .arr (sn.commits.map Yaml.str))]

/-- `model_dump(mode="json")` of a `ProjectState`, fields in declaration
order (`sort_keys=False`). -/
def dumpState (s : ProjectState) : Yaml :=
  .obj [("version", .str s.version),
        ("project", .str s.project),
        ("agent", .str s.agent.toStr),
        ("stack", .str s.stack),
        ("test_command", .str s.test_command),
        ("last_updated", .str s.last_updated),
        ("components", .obj (s.components.map (fun p => (p.1, dumpComponent p.2)))),
        ("sessions", .arr (s.sessions.map dumpSession)),
        ("guardrails", .arr (s.guardrails.map Yaml.str))]

/-- Look up a key in a YAML mapping. -/
def getField (kvs : List (String × Yaml)) (k : String) : Option Yaml :=
  match kvs.find? (fun p => p.1 == k) with
  | some p => some p.2
  | none => none

/-- Validate a value expected to be a string. -/
def asStr : Yaml → Except String String
  | .str s => .ok s
  | _ => .error "expected a string"

/-- Validate a value expected to be a string or null (`Optional[str]`). -/
def asOptStr : Yaml → Except String (Option String)
  | .null => .ok none
  | .str s => .ok (some s)
  | _ => .error "expected a string or null"

/-- A string field with a declared default for when the key is absent. -/
def strField (kvs : List (String × Yaml)) (k dflt : String) : Except String String :=
  match getField kvs k with
  | none => .ok dflt
  | some v => asStr v

/-- An `Optional[str]` field defaulting to `None` when the key is absent. -/
def optStrField (kvs : List (String × Yaml)) (k : String) :
    Except String (Option String) :=
  match getField kvs k with
  | none => .ok none
  | some v => asOptStr v

/-- Validate every element of a list as a string (`list[str]`). -/
def strAll : List Yaml → Except String (List String)
  | [] => .ok []
  | y :: ys => do
      let s ← asStr y
      let rest ← strAll ys
      .ok (s :: rest)

/-- Validate a `list[str]` field value. -/
def validateStrList : Yaml → Except String (List String)
  | .arr xs => strAll xs
  | _ => .error "expected a list"

/-- pydantic validation of a `Component` document. -/
def validateComponent : Yaml → Except String Component
  | .obj kvs => do
      let stStr ← strField kvs "status" "pending"
      let st ← match ComponentStatus.parse stStr with
        | some st => Except.ok st
        | none => Except.error "invalid component status"
      let os ← optStrField kvs "output_schema"
      let ch ← optStrField kvs "contract_hash"
      let dep ← optStrField kvs "depends_on"
      Except.ok { status := st, output_schema := os, contract_hash := ch,
                  depends_on := dep }
  | _ => .error "component must be a mapping"

/-- Validate the entries of the `components` mapping. -/
def validateComponents : List (String × Yaml) →
    Except String (List (String × Component))
  | [] => .ok []
  | (k, v) :: rest => do
      let c ← validateComponent v
      let cs ← validateComponents rest
      Except.ok ((k, c) :: cs)

/-- pydantic validation of a `Session` document; `date` and `summary` are
required, `commits` defaults to the empty list. -/
def validateSession : Yaml → Except String Session
  | .obj kvs => do
      let date ← match getField kvs "date" with
        | some v => asStr v
        | none => Except.error "date is required"
      let summary ← match getField kvs "summary" with
        | some v => asStr v
        | none => Except.error "summary is required"
      let commits ← match getField kvs "commits" with
        | none => Except.ok []
        | some v => validateStrList v
      Except.ok { date := date, summary := summary, commits := commits }
  | _ => .error "session must be a mapping"

/-- Validate the elements of the `sessions` list. -/
def validateSessions : List Yaml → Except String (List Session)
  | [] => .ok []
  | y :: ys => do
      let sn ← validateSession y
      let rest ← validateSessions ys
      Except.ok (sn :: rest)

/-- pydantic validation of a `ProjectState` document (`model_validate` in
`load_state`).  `now` feeds the `default_factory` of `last_updated` when
that key is absent. -/
def validateState (now : String) : Yaml → Except String ProjectState
  | .obj kvs => do
      let version ← strField kvs "version" "0.1.0"
      let project ← strField kvs "project" ""
      let agentStr ← strField kvs "agent" "other"
      let agent ← match AgentType.parse agentStr with
        | some a => Except.ok a
        | none => Except.error "invalid agent"
      let stack ← strField kvs "stack" ""
      let test_command ← strField kvs "test_command" ""
      let last_updated ← strField kvs "last_updated" now
      let components ← match getField kvs "components" with
        | none => Except.ok []
        | some (.obj cs) => validateComponents cs
        | some _ => Except.error "components must be a mapping"
      let sessions ← match getField kvs "sessions" with
        | none => Except.ok []
        | some (.arr ys) => validateSessions ys
        | some _ => Except.error "sessions must be a list"
      let guardrails ← match getField kvs "guardrails" with
        | none => Except.ok []
        | some v => validateStrList v
      Except.ok { version := version, project := project, agent := agent,
                  stack := stack, test_command := test_command,
                  last_updated := last_updated, components := components,
                  sessions := sessions, guardrails := guardrails }
  | _ => .error "state must be a mapping"

/-!
## Filesystem model and state persistence

`FS` is the project's on-disk store: the state file content (`none` when
absent) and the checkpoint directory as an association list from name to
file content.
-/

/-- The project root's persistent store. -/
structure FS where
  stateDoc : Option Yaml := none
  checkpoints : List (String × Yaml) := []

/-- Errors of `load_state`: `FileNotFoundError` when the file is absent,
a pydantic `ValidationError` when the document fails validation. -/
inductive LoadErr where
  | notFound
  | schemaError (msg : String)
deriving DecidableEq, Repr

/-- `load_state` from `state.py`: raises `FileNotFoundError` when the
state file does not exist, otherwise parses and validates the document. -/
def load_state (fs : FS) (now : String) : Except LoadErr ProjectState :=
  match fs.stateDoc with
  | none => .error .notFound
  | some doc =>
      match validateState now doc with
      | .ok s => .ok s
      | .error e => .error (.schemaError e)

/-- `save_state` from `state.py`: refreshes `last_updated` to the current
time (`now`), then writes the serialized document, creating the state
directory if needed.  Returns the updated store and the mutated state. -/
def save_state (fs : FS) (s : ProjectState) (now : String) : FS × ProjectState :=
  let s' := { s with last_updated := now }
  ({ fs with stateDoc := some (dumpState s') }, s')

/-!
## Guardrail rule management (`guard.py`)
-/

/-- `GuardResult` dataclass from `guard.py`. -/
structure GuardResult where
  passed : List String := []
  failed : List String := []
deriving DecidableEq, Repr

/-- `GuardResult.ok`: true when every guardrail test passed
(`len(self.failed) == 0`). -/
def GuardResult.ok (r : GuardResult) : Bool :=
  r.failed.length == 0

/-- `add_rule` from `guard.py`: load the state, trim the rule, append and
save only when the trimmed rule is non-empty and not already stored;
return the updated rule list. -/
def add_rule (fs : FS) (rule : String) (now : String) :
    Except LoadErr (FS × List String) :=
  match load_state fs now with
  | .error e => .error e
  | .ok state =>
      let rule := pyStrip rule
      if rule ≠ "" ∧ rule ∉ state.guardrails then
        let state' := { state with guardrails := state.guardrails ++ [rule] }
        let (fs', state'') := save_state fs state' now
        .ok (fs', state''.guardrails)
      else
        .ok (fs, state.guardrails)

/-- `remove_rule` from `guard.py`: load the state, trim the rule, remove
the first occurrence and save only when the trimmed rule is stored;
return the updated rule list. -/
def remove_rule (fs : FS) (rule : String) (now : String) :
    Except LoadErr (FS × List String) :=
  match load_state fs now with
  | .error e => .error e
  | .ok state =>
      let rule := pyStrip rule
      if rule ∈ state.guardrails then
        let state' := { state with guardrails := state.guardrails.erase rule }
        let (fs', state'') := save_state fs state' now
        .ok (fs', state''.guardrails)
      else
        .ok (fs, state.guardrails)

/-- The effect of `add_rule` on the stored rule list alone. -/
def addRuleList (gs : List String) (rule : String) : List String :=
  let r := pyStrip rule
  if r ≠ "" ∧ r ∉ gs then gs ++ [r] else gs

/-- The effect of `remove_rule` on the stored rule list alone. -/
def removeRuleList (gs : List String) (rule : String) : List String :=
  let r := pyStrip rule
  if r ∈ gs then gs.erase r else gs

/-- One rule-management operation. -/
inductive GuardOp where
  | add (rule : String)
  | remove (rule : String)

/-- Apply one rule-management operation to the stored rule list. -/
def applyGuardOp (gs : List String) : GuardOp → List String
  | .add r => addRuleList gs r
  | .remove r => removeRuleList gs r

/-- Apply a sequence of rule-management operations. -/
def applyGuardOps (gs : List String) (ops : List GuardOp) : List String :=
  ops.foldl applyGuardOp gs

/-!
## Guardrail rule evaluation (`guard.py`)

`subprocess.run` and the filesystem queries are oracles in a `GuardEnv`.
The `try`/`except` of `_check_single_rule` catches `TimeoutExpired` and
every other exception from the subprocess call; the raw subprocess outcome
is therefore a three-way `SubprocResult` and the handler maps the latter
two cases to failed entries.
-/

/-- Outcome of `subprocess.run` on a command: normal completion with an
exit code, `TimeoutExpired` after the 60-second limit, or any other
raised exception (e.g. the command cannot be launched). -/
inductive SubprocResult where
  | completed (returncode : Int)
  | timedOut
  | raised (msg : String)
deriving DecidableEq, Repr

/-- Process/filesystem environment for rule evaluation. -/
structure GuardEnv where
  subprocRun : String → SubprocResult
  glob : String → List String
  fileExists : String → Bool

/-- `_check_single_rule` from `guard.py`: prefix-dispatched evaluation of
one rule; returns `(passed, message)`. -/
def check_single_rule (env : GuardEnv) (rule : String) : Bool × String :=
  if pyStartsWith rule "cmd:" then
    let cmd := pyStrip (pyDrop rule 4)
    match env.subprocRun cmd with
    | .completed rc =>
        if rc = 0 then (true, s!"cmd passed: {cmd}")
        else (false, s!"cmd failed (exit {rc}): {cmd}")
    | .timedOut => (false, s!"cmd timed out: {cmd}")
    | .raised msg => (false, s!"cmd error: {msg}")
  else if pyStartsWith rule "no-file:" then
    let pattern := pyStrip (pyDrop rule 8)
    let found := env.glob pattern
    if found ≠ [] then
      let joined := String.intercalate ", " found
      (false, s!"Forbidden file(s) found: {joined}")
    else (true, s!"No forbidden files matching {pattern}")
  else if pyStartsWith rule "require-file:" then
    let filepath := pyStrip (pyDrop rule 13)
    if env.fileExists filepath then (true, s!"Required file exists: {filepath}")
    else (false, s!"Required file missing: {filepath}")
  else
    (true, s!"Manual rule (not testable): {rule}")

/-- The evaluation loop of `check_rules`: each rule contributes its
message to `passed` or `failed`, in rule order. -/
def checkList (env : GuardEnv) : List String → GuardResult
  | [] => {}
  | rule :: rest =>
      let pm := check_single_rule env rule
      let r := checkList env rest
      if pm.1 then { r with passed := pm.2 :: r.passed }
      else { r with failed := pm.2 :: r.failed }

/-- `check_rules` from `guard.py`: load the stored rules (`list_rules`)
and evaluate every one. -/
def check_rules (env : GuardEnv) (fs : FS) (now : String) :
    Except LoadErr GuardResult :=
  match load_state fs now with
  | .error e => .error e
  | .ok state => .ok (checkList env state.guardrails)

/-!
## Checkpoints (`checkpoint.py`)

A checkpoint is a verbatim copy of the state file content, stored under
the trimmed name (`<name>.yaml`).  `shutil.copy2` is copying the file
content unchanged in both directions.
-/

/-- Errors raised by the checkpoint operations: `ValueError` for an
invalid name, `FileNotFoundError` when the state file or checkpoint is
absent, a pydantic `ValidationError` when the live document is invalid. -/
inductive CkptErr where
  | invalidName (msg : String)
  | notFound
  | schemaError (msg : String)
deriving DecidableEq, Repr

/-- `save_checkpoint` from `checkpoint.py`: trim the name, reject empty
names and names containing path separators, verify the live state
document loads (`load_state`), then copy its content verbatim to the
per-name slot, overwriting any prior checkpoint of that name. -/
def save_checkpoint (fs : FS) (name : String) (now : String) :
    Except CkptErr FS :=
  let name := pyStrip name
  if name = "" then
    .error (.invalidName "Checkpoint name cannot be empty")
  else if pyContainsChar name '/' ∨ pyContainsChar name '\\' then
    .error (.invalidName "Checkpoint name cannot contain path separators")
  else
    match fs.stateDoc with
    | none => .error .notFound
    | some doc =>
        match validateState now doc with
        | .error e => .error (.schemaError e)
        | .ok _ => .ok { fs with checkpoints := setKey fs.checkpoints name doc }

/-- `rollback_checkpoint` from `checkpoint.py`: copy the named
checkpoint's content back over the state file, without re-validating. -/
def rollback_checkpoint (fs : FS) (name : String) : Except CkptErr FS :=
  match fs.checkpoints.lookup (pyStrip name) with
  | none => .error .notFound
  | some doc => .ok { fs with stateDoc := some doc }

/-- A sequence of state mutations, each persisted with `save_state`. -/
def saveStateSeq (fs : FS) : List (ProjectState × String) → FS
  | [] => fs
  | (s, now) :: rest => saveStateSeq (save_state fs s now).1 rest

/-- A store whose state file holds a structurally invalid document: the
`agent` value is not one of the enumerated agent types. -/
def ckptBadFS : FS := { stateDoc := some (.obj [("agent", Yaml.str "gemini")]) }

/-- A store whose state file holds a valid document. -/
def ckptGoodFS : FS := { stateDoc := some (dumpState { last_updated := "t0" }) }

/-!
## Component registration (`state.py`, `add_component`)
-/

/-- `add_component` from `state.py`: add or update a component; when
`output_schema` is truthy, its contract hash is computed from the file at
that path (the hashing oracle embeds `compute_contract_hash`, returning
`none` when the path is not a regular file). -/
def add_component (hash : String → Option String) (s : ProjectState)
    (name : String) (status : ComponentStatus := .pending)
    (output_schema : Option String := none)
    (depends_on : Option String := none) : ProjectState :=
  let contract_hash :=
    if truthy output_schema then hash (output_schema.getD "") else none
  { s with
      components := setKey s.components name
        { status := status, output_schema := output_schema,
          contract_hash := contract_hash, depends_on := depends_on } }

/-!
## Project-brief synchronization (`sync.py`)

`generate_claude_md` is a pure function of the loaded state and the
generation-time timestamp.  `compute_diff` returns `None` exactly when the
stripped existing and new contents are equal; `sync` skips the rewrite of
`CLAUDE.md` precisely when `compute_diff` returns `None`.
-/

/-- The do-not-edit header marker from `sync.py`. -/
def HEADER_MARKER : String := "# DRIFTCTL MANAGED — DO NOT EDIT MANUALLY"

/-- `generate_claude_md` from `sync.py`: the generated CLAUDE.md content,
line by line, for a given state and sync timestamp. -/
def generate_claude_md (s : ProjectState) (timestamp : String) : String :=
  let header : List String :=
    [HEADER_MARKER,
     "# Last synced: " ++ timestamp,
     "# To update run: driftctl sync",
     ""]
  let identity : List String :=
    ["## Project",
     "- Name: " ++ s.project,
     "- Agent: " ++ s.agent.toStr,
     "- Stack: " ++ s.stack,
     "- Test command: " ++ s.test_command,
     ""]
  let guardLines : List String :=
    if s.guardrails ≠ [] then
      (s.guardrails.enumFrom 1).map (fun p => toString p.1 ++ ". " ++ p.2)
    else ["No guardrails configured yet."]
  let compLines : List String :=
    if s.components ≠ [] then
      ["| Component | Status | Depends On |",
       "|-----------|--------|------------|"] ++
      s.components.map (fun p =>
        let dep := if truthy p.2.depends_on then p.2.depends_on.getD "" else "—"
        "| " ++ p.1 ++ " | " ++ p.2.status.toStr ++ " | " ++ dep ++ " |")
    else ["No components tracked yet."]
  let sessLines : List String :=
    match s.sessions.getLast? with
    | some last =>
        let commits :=
          if last.commits ≠ [] then String.intercalate ", " last.commits
          else "none"
        ["- Date: " ++ last.date,
         "- Summary: " ++ last.summary,
         "- Commits: " ++ commits]
    | none => ["No sessions recorded yet."]
  String.intercalate "\n"
    (header ++ identity
      ++ ("## Guardrails — follow these at all times" :: guardLines) ++ [""]
      ++ ("## Component Status" :: compLines) ++ [""]
      ++ ("## Last Session" :: sessLines) ++ [""]
      ++ ["## Agent Instructions",
          "1. Read this file fully before writing any code",
          "2. Run `driftctl validate` — if it fails stop and fix it",
          "3. Never violate the guardrails listed above",
          "4. Commit after each working component passes tests",
          "5. Write ESCALATION.md if uncertain — never guess",
          "6. Run `driftctl handoff` at end of session",
          ""])

/-- `compute_diff` from `sync.py`: `None` when the stripped contents are
equal (the skip-the-write signal), otherwise a human-readable diff. -/
def compute_diff (existing new : String) : Option String :=
  if pyStrip existing = pyStrip new then none
  else
    let old_lines := pySplitLines (pyStrip existing)
    let new_lines := pySplitLines (pyStrip new)
    let max_len := max old_lines.length new_lines.length
    let body := ((List.range max_len).map (fun i =>
      let old := old_lines.getD i ""
      let nw := new_lines.getD i ""
      if old ≠ nw then
        (if old ≠ "" then ["[red]- " ++ old ++ "[/red]"] else []) ++
        (if nw ≠ "" then ["[green]+ " ++ nw ++ "[/green]"] else [])
      else [])).flatten
    some (String.intercalate "\n"
      (["[dim]--- existing CLAUDE.md[/dim]", "[dim]+++ new CLAUDE.md[/dim]"]
        ++ body))

/-- A minimal state for exercising sync. -/
def syncStateEx : ProjectState := { last_updated := "t0" }

/-- Two distinct generation timestamps. -/
def tsA : String := "2024-01-01T00:00:00+00:00"

/-- See `tsA`. -/
def tsB : String := "2024-01-01T00:00:01+00:00"

/-!
## Concrete witnesses
-/

/-- A concrete state with two stored guardrails. -/
def exStateG : ProjectState :=
  { last_updated := "t0", guardrails := ["cmd:boom", "keep tests green"] }

/-- A store holding the serialized `exStateG`. -/
def exFSG : FS := { stateDoc := some (dumpState exStateG) }

/-- An environment in which every subprocess times out. -/
def exEnv : GuardEnv :=
  { subprocRun := fun _ => .timedOut
    glob := fun _ => []
    fileExists := fun _ => false }

/-- The store `ckptGoodFS` after checkpointing its state under `v1`. -/
def ckptSavedFS : FS :=
  { stateDoc := some (dumpState { last_updated := "t0" })
    checkpoints := [("v1", dumpState { last_updated := "t0" })] }

/-- One state mutation persisted by `save_state`. -/
def mutSeq : List (ProjectState × String) :=
  [({ last_updated := "z", project := "mut" }, "t2")]

/-!
## Theorems
-/

lemma detectDriftList_perm (hash : String → Option String) :
    ∀ comps : List (String × Component),
      List.Perm (buckets (detectDriftList hash comps)) (comps.map Prod.fst) := by
  intro comps
  induction comps with
  | nil => simp [detectDriftList, buckets]
  | cons hd rest ih =>
    obtain ⟨name, comp⟩ := hd
    simp only [detectDriftList, List.map_cons]
    split
    · exact List.perm_middle.trans (ih.cons name)
    · split
      · exact ((List.perm_middle.append_right _).trans (ih.cons name))
      · split
        · exact ih.cons name
        · exact (((List.perm_middle.append_right _).append_right _).trans
            (ih.cons name))

/-- **C1.** `detect_drift` places every component name into exactly one of
the four buckets: the union of the buckets is the set of component names,
and the buckets are pairwise disjoint (component names are unique, being
keys of a Python dict). -/
theorem drift_partition (hash : String → Option String) (s : ProjectState)
    (h : (s.components.map Prod.fst).Nodup) :
    (∀ n, n ∈ s.components.map Prod.fst ↔
        (n ∈ (detect_drift hash s).clean ∨ n ∈ (detect_drift hash s).drifted ∨
         n ∈ (detect_drift hash s).missing ∨ n ∈ (detect_drift hash s).no_contract))
    ∧ (detect_drift hash s).clean.Disjoint (detect_drift hash s).drifted
    ∧ (detect_drift hash s).clean.Disjoint (detect_drift hash s).missing
    ∧ (detect_drift hash s).clean.Disjoint (detect_drift hash s).no_contract
    ∧ (detect_drift hash s).drifted.Disjoint (detect_drift hash s).missing
    ∧ (detect_drift hash s).drifted.Disjoint (detect_drift hash s).no_contract
    ∧ (detect_drift hash s).missing.Disjoint (detect_drift hash s).no_contract := by
  have p := detectDriftList_perm hash s.components
  have hn : (buckets (detectDriftList hash s.components)).Nodup :=
    (p.nodup_iff).mpr h
  simp only [buckets, List.nodup_append, List.disjoint_append_left,
    List.disjoint_append_right] at hn
  refine ⟨fun n => ?_, ?_, ?_, ?_, ?_, ?_, ?_⟩
  · rw [← p.mem_iff]
    simp [buckets, detect_drift, or_assoc]
  all_goals
    simp only [detect_drift]
    tauto

/-- Witness for C1 at a concrete state and hashing oracle. -/
theorem drift_partition_witness :
    "a" ∈ (detect_drift exHash exState).clean ∨
    "a" ∈ (detect_drift exHash exState).drifted ∨
    "a" ∈ (detect_drift exHash exState).missing ∨
    "a" ∈ (detect_drift exHash exState).no_contract :=
  ((drift_partition exHash exState (by decide)).1 "a").mp (by decide)

lemma ok_bind {α β ε : Type} (a : α) (f : α → Except ε β) :
    (Except.ok a >>= f : Except ε β) = f a := rfl

lemma parse_toStr_status (st : ComponentStatus) :
    ComponentStatus.parse st.toStr = some st := by cases st <;> rfl

lemma parse_toStr_agent (a : AgentType) :
    AgentType.parse a.toStr = some a := by cases a <;> rfl

lemma validateComponent_dump (c : Component) :
    validateComponent (dumpComponent c) = Except.ok c := by
  obtain ⟨st, os, ch, dep⟩ := c
  cases st <;> cases os <;> cases ch <;> cases dep <;> rfl

lemma validateComponents_dump (comps : List (String × Component)) :
    validateComponents (comps.map (fun p => (p.1, dumpComponent p.2))) =
      Except.ok comps := by
  induction comps with
  | nil => rfl
  | cons hd rest ih =>
      simp [validateComponents, validateComponent_dump, ih, ok_bind]

lemma strAll_dump (xs : List String) :
    strAll (xs.map Yaml.str) = Except.ok xs := by
  induction xs with
  | nil => rfl
  | cons hd rest ih => simp [strAll, asStr, ih, ok_bind]

lemma validateSession_dump (sn : Session) :
    validateSession (dumpSession sn) = Except.ok sn := by
  obtain ⟨date, summary, commits⟩ := sn
  simp [validateSession, dumpSession, getField, asStr, validateStrList,
    strAll_dump, ok_bind]

lemma validateSessions_dump (ss : List Session) :
    validateSessions (ss.map dumpSession) = Except.ok ss := by
  induction ss with
  | nil => rfl
  | cons hd rest ih => simp [validateSessions, validateSession_dump, ih, ok_bind]

/-- Validation is a left inverse of serialization on the embedded schema. -/
theorem validateState_dump (now : String) (s : ProjectState) :
    validateState now (dumpState s) = Except.ok s := by
  obtain ⟨ver, pj, ag, stk, tc, lu, comps, sess, gr⟩ := s
  simp [validateState, dumpState, strField, getField, asStr,
    parse_toStr_agent, validateComponents_dump, validateSessions_dump,
    validateStrList, strAll_dump, ok_bind]

/-- **C3.** Saving a state and loading it back yields a state equal to the
original in every field except `last_updated`, which `save_state`
refreshes to the save-time timestamp. -/
theorem save_load_roundtrip (fs : FS) (s : ProjectState) (t t' : String) :
    load_state (save_state fs s t).1 t' =
      Except.ok { s with last_updated := t } := by
  simp [load_state, save_state, validateState_dump]

lemma addRuleList_nodup {gs : List String} (h : gs.Nodup) (r : String) :
    (addRuleList gs r).Nodup := by
  by_cases hc : (pyStrip r) ≠ "" ∧ (pyStrip r) ∉ gs
  · simp [addRuleList, hc, List.nodup_append, h, List.disjoint_singleton]
  · simp [addRuleList, hc, h]

lemma removeRuleList_nodup {gs : List String} (h : gs.Nodup) (r : String) :
    (removeRuleList gs r).Nodup := by
  by_cases hc : (pyStrip r) ∈ gs
  · simpa [removeRuleList, hc] using h.erase (pyStrip r)
  · simp [removeRuleList, hc, h]

lemma applyGuardOps_nodup {gs : List String} (h : gs.Nodup) :
    ∀ ops : List GuardOp, (applyGuardOps gs ops).Nodup := by
  intro ops
  induction ops generalizing gs with
  | nil => exact h
  | cons op rest ih =>
      cases op with
      | add r => exact ih (addRuleList_nodup h r)
      | remove r => exact ih (removeRuleList_nodup h r)

/-- **C8.** `add_rule` and `remove_rule` trim the rule before storage and
comparison, no-op on duplicate adds and absent removes, and preserve
freedom from duplicates across any sequence of operations. -/
theorem guard_rule_management (fs : FS) (s : ProjectState) (now r : String)
    (h : load_state fs now = Except.ok s) :
    ((pyStrip r) ∈ s.guardrails → add_rule fs r now = Except.ok (fs, s.guardrails))
    ∧ ((pyStrip r) ≠ "" → (pyStrip r) ∉ s.guardrails →
        add_rule fs r now = Except.ok
          ((save_state fs { s with guardrails := s.guardrails ++ [(pyStrip r)] } now).1,
           s.guardrails ++ [(pyStrip r)]))
    ∧ ((pyStrip r) ∉ s.guardrails → remove_rule fs r now = Except.ok (fs, s.guardrails))
    ∧ ((pyStrip r) ∈ s.guardrails →
        remove_rule fs r now = Except.ok
          ((save_state fs { s with guardrails := s.guardrails.erase (pyStrip r) } now).1,
           s.guardrails.erase (pyStrip r)))
    ∧ (s.guardrails.Nodup → ∀ ops : List GuardOp, (applyGuardOps s.guardrails ops).Nodup) := by
  refine ⟨?_, ?_, ?_, ?_, fun hn ops => applyGuardOps_nodup hn ops⟩
  · intro hmem
    simp [add_rule, h, hmem]
  · intro hne hmem
    simp [add_rule, h, hne, hmem, save_state]
  · intro hmem
    simp [remove_rule, h, hmem]
  · intro hmem
    simp [remove_rule, h, hmem, save_state]

/-- **C10.** When the trimmed rule is empty, already stored (for add), or
absent (for remove), the operation is a complete no-op: the rule list is
unchanged and the persisted state file is not rewritten — the returned
store is the input store, so `last_updated` is not refreshed. -/
theorem add_rule_frame (fs : FS) (s : ProjectState) (now r : String)
    (h : load_state fs now = Except.ok s) :
    ((pyStrip r) = "" → add_rule fs r now = Except.ok (fs, s.guardrails))
    ∧ ((pyStrip r) ∈ s.guardrails → add_rule fs r now = Except.ok (fs, s.guardrails))
    ∧ ((pyStrip r) ∉ s.guardrails → remove_rule fs r now = Except.ok (fs, s.guardrails)) := by
  refine ⟨?_, ?_, ?_⟩
  · intro he
    simp [add_rule, h, he]
  · intro hmem
    simp [add_rule, h, hmem]
  · intro hmem
    simp [remove_rule, h, hmem]

lemma checkList_length (env : GuardEnv) (rules : List String) :
    (checkList env rules).passed.length + (checkList env rules).failed.length =
      rules.length := by
  induction rules with
  | nil => rfl
  | cons rule rest ih =>
      simp only [checkList]
      split <;> simp <;> omega

lemma checkList_mem_passed (env : GuardEnv) {rules : List String} {rule : String}
    (hmem : rule ∈ rules) (hp : (check_single_rule env rule).1 = true) :
    (check_single_rule env rule).2 ∈ (checkList env rules).passed := by
  induction rules with
  | nil => cases hmem
  | cons hd rest ih =>
      rcases List.mem_cons.mp hmem with heq | htl
      · subst heq
        simp only [checkList, hp]
        simp
      · simp only [checkList]
        split
        · exact List.mem_cons_of_mem _ (ih htl)
        · exact ih htl

lemma checkList_mem_failed (env : GuardEnv) {rules : List String} {rule : String}
    (hmem : rule ∈ rules) (hp : (check_single_rule env rule).1 = false) :
    (check_single_rule env rule).2 ∈ (checkList env rules).failed := by
  induction rules with
  | nil => cases hmem
  | cons hd rest ih =>
      rcases List.mem_cons.mp hmem with heq | htl
      · subst heq
        simp only [checkList, hp]
        simp
      · simp only [checkList]
        split
        · exact ih htl
        · exact List.mem_cons_of_mem _ (ih htl)

/-- **C4.** `check_rules` never lets an execution fault escape: a `cmd:`
rule whose subprocess times out, and any other fault raised while running
a rule, become entries of `failed`, and the result is a complete
passed/failed partition of all stored rules. -/
theorem check_rules_faults_contained (env : GuardEnv) (fs : FS) (now : String)
    (s : ProjectState) (h : load_state fs now = Except.ok s) :
    check_rules env fs now = Except.ok (checkList env s.guardrails)
    ∧ (checkList env s.guardrails).passed.length +
        (checkList env s.guardrails).failed.length = s.guardrails.length
    ∧ (∀ rule ∈ s.guardrails,
        (check_single_rule env rule).2 ∈ (checkList env s.guardrails).passed ∨
        (check_single_rule env rule).2 ∈ (checkList env s.guardrails).failed)
    ∧ (∀ rule ∈ s.guardrails, pyStartsWith rule "cmd:" = true →
        env.subprocRun (pyStrip (pyDrop rule 4)) = .timedOut →
        (check_single_rule env rule).1 = false ∧
        (check_single_rule env rule).2 ∈ (checkList env s.guardrails).failed)
    ∧ (∀ rule ∈ s.guardrails, ∀ msg, pyStartsWith rule "cmd:" = true →
        env.subprocRun (pyStrip (pyDrop rule 4)) = .raised msg →
        (check_single_rule env rule).1 = false ∧
        (check_single_rule env rule).2 ∈ (checkList env s.guardrails).failed) := by
  refine ⟨by simp [check_rules, h], checkList_length env s.guardrails, ?_, ?_, ?_⟩
  · intro rule hmem
    cases hp : (check_single_rule env rule).1 with
    | true => exact Or.inl (checkList_mem_passed env hmem hp)
    | false => exact Or.inr (checkList_mem_failed env hmem hp)
  · intro rule hmem hcmd htime
    have hp : (check_single_rule env rule).1 = false := by
      simp [check_single_rule, hcmd, htime]
    exact ⟨hp, checkList_mem_failed env hmem hp⟩
  · intro rule hmem msg hcmd hraise
    have hp : (check_single_rule env rule).1 = false := by
      simp [check_single_rule, hcmd, hraise]
    exact ⟨hp, checkList_mem_failed env hmem hp⟩

lemma saveStateSeq_checkpoints (muts : List (ProjectState × String)) :
    ∀ fs : FS, (saveStateSeq fs muts).checkpoints = fs.checkpoints := by
  induction muts with
  | nil => intro fs; rfl
  | cons m rest ih =>
      intro fs
      obtain ⟨s, now⟩ := m
      simpa [saveStateSeq, save_state] using ih _

lemma lookup_setKey (kvs : List (String × α)) (k : String) (v : α) :
    (setKey kvs k v).lookup k = some v := by
  induction kvs with
  | nil => simp [setKey]
  | cons hd rest ih =>
      obtain ⟨k₀, v₀⟩ := hd
      by_cases hk : k₀ = k
      · simp [setKey, hk]
      · have hne : (k == k₀) = false :=
          beq_eq_false_iff_ne.mpr (fun h => hk h.symm)
        simp [setKey, hk, List.lookup, ih, hne]

/-- **C5.** Saving a checkpoint, then performing any sequence of state
mutations and saves, then rolling back to that checkpoint restores the
live state document exactly to its content at checkpoint time. -/
theorem checkpoint_rollback_restores (fs fs₁ : FS) (name now : String)
    (muts : List (ProjectState × String))
    (h : save_checkpoint fs name now = Except.ok fs₁) :
    rollback_checkpoint (saveStateSeq fs₁ muts) name =
      Except.ok { saveStateSeq fs₁ muts with stateDoc := fs.stateDoc } := by
  simp only [save_checkpoint] at h
  split at h
  · cases h
  · split at h
    · cases h
    · split at h
      · cases h
      · next doc hdoc =>
          split at h
          · cases h
          · cases h
            simp [rollback_checkpoint, saveStateSeq_checkpoints,
              lookup_setKey, hdoc]

/-- **C6 (amended).** `save_checkpoint` fails with `InvalidName` exactly
when the trimmed name is empty or contains a path separator; with the
name acceptable it fails with `NotFound` when the live state document
does not exist, fails with a schema-validation error (not `NotFound`)
when the document exists but is invalid, and otherwise succeeds,
writing a verbatim copy of the live document under the trimmed name,
overwriting any prior checkpoint of that name. -/
theorem save_checkpoint_characterization (fs : FS) (name now : String) :
    ((pyStrip name) = "" →
      save_checkpoint fs name now =
        Except.error (.invalidName "Checkpoint name cannot be empty"))
    ∧ ((pyStrip name) ≠ "" → (pyContainsChar (pyStrip name) '/' ∨ pyContainsChar (pyStrip name) '\\') →
      save_checkpoint fs name now =
        Except.error (.invalidName "Checkpoint name cannot contain path separators"))
    ∧ ((pyStrip name) ≠ "" → pyContainsChar (pyStrip name) '/' = false →
        pyContainsChar (pyStrip name) '\\' = false →
        (fs.stateDoc = none → save_checkpoint fs name now = Except.error .notFound)
        ∧ (∀ doc e, fs.stateDoc = some doc → validateState now doc = Except.error e →
            save_checkpoint fs name now = Except.error (.schemaError e))
        ∧ (∀ doc s, fs.stateDoc = some doc → validateState now doc = Except.ok s →
            save_checkpoint fs name now =
              Except.ok { fs with checkpoints := setKey fs.checkpoints (pyStrip name) doc })) := by
  refine ⟨?_, ?_, ?_⟩
  · intro he
    simp [save_checkpoint, he]
  · intro hne hsep
    simp only [save_checkpoint]
    rw [if_neg hne, if_pos hsep]
  · intro hne hs1 hs2
    refine ⟨?_, ?_, ?_⟩
    · intro hdoc
      simp [save_checkpoint, hne, hs1, hs2, hdoc]
    · intro doc e hdoc hval
      simp [save_checkpoint, hne, hs1, hs2, hdoc, hval]
    · intro doc s hdoc hval
      simp [save_checkpoint, hne, hs1, hs2, hdoc, hval]

/-- Witness for the amended C6: a valid store and the name `v1` succeed,
storing a verbatim copy of the live document. -/
theorem save_checkpoint_characterization_witness :
    save_checkpoint ckptGoodFS "v1" "t1" =
      Except.ok { ckptGoodFS with
        checkpoints :=
          setKey ckptGoodFS.checkpoints "v1" (dumpState { last_updated := "t0" }) } :=
  ((save_checkpoint_characterization ckptGoodFS "v1" "t1").2.2
      (by decide) (by decide) (by decide)).2.2
    (dumpState { last_updated := "t0" }) { last_updated := "t0" } rfl
    (validateState_dump "t1" { last_updated := "t0" })

/-- Counterexample to C6 as stated: with a live document that exists but
is invalid, `save_checkpoint` fails with a schema-validation error, not
with `NotFound`; and a whitespace-only name — neither empty nor containing
a path separator — fails with `InvalidName` rather than succeeding. -/
theorem save_checkpoint_claim_counterexample :
    save_checkpoint ckptBadFS "v1" "t1" =
      Except.error (.schemaError "invalid agent")
    ∧ CkptErr.schemaError "invalid agent" ≠ CkptErr.notFound
    ∧ ("  " ≠ "" ∧ pyContainsChar "  " '/' = false ∧ pyContainsChar "  " '\\' = false)
    ∧ save_checkpoint ckptGoodFS "  " "t1" =
        Except.error (.invalidName "Checkpoint name cannot be empty") := by
  refine ⟨rfl, by decide, by decide, rfl⟩

lemma mem_setKey_self (kvs : List (String × α)) (k : String) (v : α) :
    (k, v) ∈ setKey kvs k v := by
  induction kvs with
  | nil => simp [setKey]
  | cons hd rest ih =>
      obtain ⟨k₀, v₀⟩ := hd
      by_cases hk : k₀ = k
      · simp [setKey, hk]
      · simp [setKey, hk]
        exact Or.inr ih

lemma mem_keys_setKey {kvs : List (String × α)} {k x : String} {v : α}
    (h : x ∈ (setKey kvs k v).map Prod.fst) :
    x ∈ kvs.map Prod.fst ∨ x = k := by
  induction kvs with
  | nil => simpa [setKey] using h
  | cons hd rest ih =>
      obtain ⟨k₀, v₀⟩ := hd
      rw [setKey] at h
      by_cases hk : k₀ = k
      · rw [if_pos hk, List.map_cons, List.mem_cons] at h
        rcases h with hx | hx
        · exact Or.inr hx
        · exact Or.inl (List.mem_cons_of_mem _ hx)
      · rw [if_neg hk, List.map_cons, List.mem_cons] at h
        rcases h with hx | hx
        · exact Or.inl (List.mem_cons.mpr (Or.inl hx))
        · rcases ih hx with h' | h'
          · exact Or.inl (List.mem_cons_of_mem _ h')
          · exact Or.inr h'

lemma setKey_keys_nodup {kvs : List (String × α)} {k : String} {v : α}
    (h : (kvs.map Prod.fst).Nodup) :
    ((setKey kvs k v).map Prod.fst).Nodup := by
  induction kvs with
  | nil => simp [setKey]
  | cons hd rest ih =>
      obtain ⟨k₀, v₀⟩ := hd
      simp only [List.map_cons, List.nodup_cons] at h
      by_cases hk : k₀ = k
      · subst hk
        simpa [setKey, List.nodup_cons] using h
      · simp only [setKey, if_neg hk, List.map_cons, List.nodup_cons]
        refine ⟨fun hx => ?_, ih h.2⟩
        rcases mem_keys_setKey hx with h' | h'
        · exact h.1 h'
        · exact hk h'

lemma assoc_unique {kvs : List (String × α)} (h : (kvs.map Prod.fst).Nodup)
    {k : String} {v₁ v₂ : α} (h₁ : (k, v₁) ∈ kvs) (h₂ : (k, v₂) ∈ kvs) :
    v₁ = v₂ := by
  induction kvs with
  | nil => cases h₁
  | cons hd rest ih =>
      obtain ⟨k₀, v₀⟩ := hd
      simp only [List.map_cons, List.nodup_cons] at h
      rcases List.mem_cons.mp h₁ with e₁ | m₁ <;>
        rcases List.mem_cons.mp h₂ with e₂ | m₂
      · cases e₁; cases e₂; rfl
      · cases e₁
        exact absurd (List.mem_map_of_mem Prod.fst m₂) h.1
      · cases e₂
        exact absurd (List.mem_map_of_mem Prod.fst m₁) h.1
      · exact ih h.2 m₁ m₂

lemma mem_no_contract_of (hash : String → Option String)
    {comps : List (String × Component)} {k : String} {c : Component}
    (hmem : (k, c) ∈ comps)
    (hc : ¬ truthy c.output_schema ∨ ¬ truthy c.contract_hash) :
    k ∈ (detectDriftList hash comps).no_contract := by
  induction comps with
  | nil => cases hmem
  | cons hd rest ih =>
      obtain ⟨k₀, c₀⟩ := hd
      rcases List.mem_cons.mp hmem with heq | htl
      · cases heq
        simp only [detectDriftList]
        rw [if_pos hc]
        simp
      · simp only [detectDriftList]
        split
        · exact List.mem_cons_of_mem _ (ih htl)
        · split
          · exact ih htl
          · split
            · exact ih htl
            · exact ih htl

lemma mem_missing_elim (hash : String → Option String)
    {comps : List (String × Component)} {k : String}
    (h : k ∈ (detectDriftList hash comps).missing) :
    ∃ c, (k, c) ∈ comps ∧ truthy c.output_schema ∧ truthy c.contract_hash := by
  induction comps with
  | nil => simp [detectDriftList] at h
  | cons hd rest ih =>
      obtain ⟨k₀, c₀⟩ := hd
      simp only [detectDriftList] at h
      split at h
      · rcases ih h with ⟨c, hm, hc⟩
        exact ⟨c, List.mem_cons_of_mem _ hm, hc⟩
      · next hcond =>
          push_neg at hcond
          split at h
          · rcases List.mem_cons.mp h with heq | htl
            · subst heq
              exact ⟨c₀, List.mem_cons_self _ _,
                by simpa using hcond.1, by simpa using hcond.2⟩
            · rcases ih htl with ⟨c, hm, hc⟩
              exact ⟨c, List.mem_cons_of_mem _ hm, hc⟩
          · split at h
            · rcases ih h with ⟨c, hm, hc⟩
              exact ⟨c, List.mem_cons_of_mem _ hm, hc⟩
            · rcases ih h with ⟨c, hm, hc⟩
              exact ⟨c, List.mem_cons_of_mem _ hm, hc⟩

/-- **C9.** Registering a component whose `output_schema` path does not
resolve to an existing regular file succeeds and stores
`contract_hash = None`; `detect_drift` then classifies it as
`no_contract`, never as `missing`. -/
theorem add_component_no_contract (hash hash2 : String → Option String)
    (s : ProjectState) (name p : String) (st : ComponentStatus)
    (dep : Option String) (hp : hash p = none)
    (hn : (s.components.map Prod.fst).Nodup) :
    ((add_component hash s name st (some p) dep).components.lookup name =
      some { status := st, output_schema := some p, contract_hash := none,
             depends_on := dep })
    ∧ name ∈ (detect_drift hash2 (add_component hash s name st (some p) dep)).no_contract
    ∧ name ∉ (detect_drift hash2 (add_component hash s name st (some p) dep)).missing := by
  have hch : (if truthy (some p) then hash p else none) = none := by
    by_cases hp' : p = ""
    · simp [truthy, hp']
    · simp [truthy, hp', hp]
  have hcomps :
      (add_component hash s name st (some p) dep).components =
        setKey s.components name
          { status := st, output_schema := some p, contract_hash := none,
            depends_on := dep } := by
    simp [add_component, hch]
  have hmem :
      (name, ({ status := st, output_schema := some p, contract_hash := none,
                depends_on := dep } : Component)) ∈
        (add_component hash s name st (some p) dep).components := by
    rw [hcomps]; exact mem_setKey_self _ _ _
  have hnodup :
      ((add_component hash s name st (some p) dep).components.map Prod.fst).Nodup := by
    rw [hcomps]; exact setKey_keys_nodup hn
  refine ⟨?_, ?_, ?_⟩
  · rw [hcomps]; exact lookup_setKey _ _ _
  · exact mem_no_contract_of hash2 hmem (Or.inr (by simp [truthy]))
  · intro hmiss
    rcases mem_missing_elim hash2 hmiss with ⟨c, hcm, _, hct⟩
    have := assoc_unique hnodup hcm hmem
    subst this
    simp [truthy] at hct

set_option maxRecDepth 100000 in
/-- **C7 (code bug).** Two generations of CLAUDE.md from the same state
differ only in the refreshed `# Last synced:` line (index 1); yet
`compute_diff` — the equality check deciding whether to skip the write —
compares the full stripped content including that line, so it does not
return the skip signal `none` for an unchanged state: the write is not
skipped. -/
theorem claude_md_skip_check_includes_timestamp :
    (pySplitLines (generate_claude_md syncStateEx tsA)).eraseIdx 1 =
      (pySplitLines (generate_claude_md syncStateEx tsB)).eraseIdx 1
    ∧ (pySplitLines (generate_claude_md syncStateEx tsA)).get? 1 =
        some ("# Last synced: " ++ tsA)
    ∧ (pySplitLines (generate_claude_md syncStateEx tsB)).get? 1 =
        some ("# Last synced: " ++ tsB)
    ∧ tsA ≠ tsB
    ∧ compute_diff (generate_claude_md syncStateEx tsA)
        (generate_claude_md syncStateEx tsB) ≠ none := by
  refine ⟨rfl, rfl, rfl, by decide, fun hc => ?_⟩
  have hs : (compute_diff (generate_claude_md syncStateEx tsA)
      (generate_claude_md syncStateEx tsB)).isSome = true := rfl
  rw [hc] at hs
  simp at hs

/-- **C2.** The overall `ok` flag of a drift result is true iff both the
`drifted` and `missing` buckets are empty; the `no_contract` bucket never
affects `ok`. -/
theorem drift_ok_iff :
    ∀ r : DriftResult,
      (r.ok = true ↔ (r.drifted = [] ∧ r.missing = []))
      ∧ (∀ ns, ({ r with no_contract := ns } : DriftResult).ok = r.ok) := by
  intro r
  refine ⟨?_, fun ns => rfl⟩
  simp [DriftResult.ok, List.length_eq_zero]

lemma exFSG_load : load_state exFSG "t1" = Except.ok exStateG := by
  simp [load_state, exFSG, validateState_dump]

/-- Witness for C8 at a concrete store: adding a rule that trims to an
already-stored rule is a no-op. -/
theorem guard_rule_management_witness :
    add_rule exFSG " cmd:boom " "t1" = Except.ok (exFSG, exStateG.guardrails) :=
  (guard_rule_management exFSG exStateG "t1" " cmd:boom " exFSG_load).1 (by decide)

/-- Witness for C10 at a concrete store: adding a whitespace-only rule
leaves the persisted store untouched. -/
theorem add_rule_frame_witness :
    add_rule exFSG "   " "t1" = Except.ok (exFSG, exStateG.guardrails) :=
  (add_rule_frame exFSG exStateG "t1" "   " exFSG_load).1 (by decide)

/-- Witness for C4 at a concrete store: a `cmd:` rule whose subprocess
times out is recorded as failed, not raised. -/
theorem check_rules_faults_contained_witness :
    (check_single_rule exEnv "cmd:boom").1 = false ∧
    (check_single_rule exEnv "cmd:boom").2 ∈
      (checkList exEnv exStateG.guardrails).failed :=
  (check_rules_faults_contained exEnv exFSG "t1" exStateG exFSG_load).2.2.2.1
    "cmd:boom" (by decide) (by decide) rfl

/-- Witness for C5 at a concrete store: save a checkpoint, mutate and
save, roll back, and recover the original document. -/
theorem checkpoint_rollback_restores_witness :
    rollback_checkpoint (saveStateSeq ckptSavedFS mutSeq) "v1" =
      Except.ok { saveStateSeq ckptSavedFS mutSeq with
                    stateDoc := ckptGoodFS.stateDoc } :=
  checkpoint_rollback_restores ckptGoodFS ckptSavedFS "v1" "t1" mutSeq rfl

/-- Witness for C9 at a concrete registration whose schema path hashes to
nothing. -/
theorem add_component_no_contract_witness :
    "c" ∈ (detect_drift exHash
      (add_component (fun _ => none) { last_updated := "t0" } "c" .pending
        (some "missing.json") none)).no_contract :=
  (add_component_no_contract (fun _ => none) exHash { last_updated := "t0" }
    "c" "missing.json" .pending none rfl (by decide)).2.1

end Driftctl
